import Mathlib

/-!
Verification development for the argo-cloudops client-side contract layer:
the validation rule registry (`internal/validations`), the typed request
models with their validation pipelines (`internal/requests`), and the HTTP
operation client (`pkg/client` / the `api` package).

Go maps are embedded as association lists (`List (String × α)`); a Go map
always has pairwise-distinct keys, so statements that depend on key
multiplicity carry a `Nodup` hypothesis.  Machine-level details that are
external library calls (container-image URI parsing from
`distribution/reference`, ARN parsing from `aws-sdk-go`) are parameters of
the embedded functions: the repository code only consumes their boolean
verdict.
-/

namespace ArgoCloudOps

/-! ## Rule registry (`internal/validations`) -/

/-- ASCII letter, the `[a-zA-Z]` character class of the Go regexp package. -/
def isAsciiAlpha (c : Char) : Bool :=
  (('a' ≤ c) && (c ≤ 'z')) || (('A' ≤ c) && (c ≤ 'Z'))

/-- ASCII digit, the `[0-9]` character class of the Go regexp package. -/
def isAsciiDigit (c : Char) : Bool :=
  ('0' ≤ c) && (c ≤ '9')

/-- The `[a-zA-Z0-9_]` character class (Go regexp `\w`). -/
def isWordChar (c : Char) : Bool :=
  isAsciiAlpha c || isAsciiDigit c || (c = '_')

/-- isAlphaNumbericUnderscore [sic], from `internal/validations/validations.go`:
the string must match the anchored Go regexp with pattern
anchor, group of one `[a-zA-Z]`, then `[a-zA-Z0-9_]*`, anchor.
Vault does not allow dashes and the name must start with a letter. -/
def isAlphaNumbericUnderscore (s : String) : Bool :=
  match s.data with
  | [] => false
  | c :: rest => isAsciiAlpha c && rest.all isWordChar

/-- The govalidator builtin `alphanum` rule: the anchored regexp
requiring one or more of `[a-zA-Z0-9]`. -/
def isAlphanumGo (s : String) : Bool :=
  match s.data with
  | [] => false
  | l => l.all (fun c => isAsciiAlpha c || isAsciiDigit c)

/-- The govalidator builtin `stringlength(lo|hi)` rule: the rune count of the
string lies between the two bounds inclusive. -/
def stringLengthBetween (lo hi : Nat) (s : String) : Bool :=
  lo ≤ s.length && s.length ≤ hi

/-- isValidArgument, from `internal/validations/validations.go` (the
validator-v9 registry file, registered under the tag valid_argument /
spec name hasRequiredArgumentKeys): iterate over the keys of the map and
return true as soon as a key equals "execute" or "init"; if the loop
finishes without one, return false.  The Go map is embedded by its key
list; the result does not depend on iteration order. -/
def isValidArgument (keys : List String) : Bool :=
  keys.any (fun k => k = "execute" || k = "init")

/-! ## Validation error taxonomy

The Go code produces `error` values via `errors.New` / `fmt.Errorf`.  They
are embedded as a closed inductive so that statements never depend on
message formatting; the doc comment of each constructor gives the exact Go
message it stands for. -/

/-- One validation failure.  Constructors carry the Go error message
they embed (quoted in each doc comment). -/
inductive ValidationError where
  /-- structValidation failure on a required field; the Go message is the
  custom text of the tag: path is required / sha is required /
  type is required / name is required. -/
  | requiredField (field : String)
  /-- structValidation failure of the govalidator alphanum rule on a field. -/
  | alphanumField (field : String)
  /-- structValidation failure of the custom alphanumunderscore rule. -/
  | alphanumUnderscoreField (field : String)
  /-- structValidation failure of a stringlength(4|32) rule on a field. -/
  | lengthField (field : String)
  /-- structValidation failure of the custom gitURI rule on a field. -/
  | gitURIField (field : String)
  /-- Go message: arguments must be one of execute init (quoted); both the
  cardinality and the key-name failure produce this same message. -/
  | argumentsNotExecuteInit
  /-- Go message: parameter execute_container_image_uri is required. -/
  | executeImageURIRequired
  /-- Go message: parameter execute_container_image_uri must be a valid container uri. -/
  | executeImageURIInvalid
  /-- Go message: parameter pre_container_image_uri must be a valid container uri. -/
  | preImageURIInvalid
  /-- Go message: type must be one of aws_account (quoted). -/
  | targetTypeNotAwsAccount
  /-- Go message: credential_type must be one of vault (quoted). -/
  | credentialTypeNotVault
  /-- Go message: role_arn must be a valid arn. -/
  | roleArnInvalid
  /-- Go message: policy_arns cannot be more than 5. -/
  | tooManyPolicyArns
  /-- Go message: policy_arns contains an invalid arn. -/
  | policyArnInvalid
deriving DecidableEq, Repr

/-- validations.Validate: iterate through the provided validation funcs,
returning the first error; `none` means success.  The thunks of the Go
variadic are embedded as already-evaluated `Option` results, which agrees
with the Go code because each func is pure. -/
def validateAll : List (Option ValidationError) → Option ValidationError
  | [] => none
  | some e :: _ => some e
  | none :: rest => validateAll rest

/-! ## Request models (`internal/requests/requests.go`) -/

/-- CreateWorkflow request.  Go maps are embedded as association lists. -/
structure CreateWorkflow where
  arguments            : List (String × List String)
  environmentVariables : List (String × String)
  framework            : String
  parameters           : List (String × String)
  projectName          : String
  targetName           : String
  type                 : String
  workflowTemplateName : String
deriving DecidableEq, Repr

/-- govalidator `ValidateStruct` on CreateWorkflow.  Only two fields carry
`valid` tags: ProjectName (`alphanum`, `stringlength(4|32)`) and TargetName
(`alphanumunderscore`, `stringlength(4|32)`); untagged fields are skipped.
govalidator does not validate an empty value unless it is tagged required
(neither field is), so an empty string passes.  Fields are checked in
declaration order, validators in tag order; the embedding keeps the first
failure. -/
def validateStructCreateWorkflow (req : CreateWorkflow) : Option ValidationError :=
  if req.projectName ≠ "" && !isAlphanumGo req.projectName then
    some (.alphanumField "project_name")
  else if req.projectName ≠ "" && !stringLengthBetween 4 32 req.projectName then
    some (.lengthField "project_name")
  else if req.targetName ≠ "" && !isAlphaNumbericUnderscore req.targetName then
    some (.alphanumUnderscoreField "target_name")
  else if req.targetName ≠ "" && !stringLengthBetween 4 32 req.targetName then
    some (.lengthField "target_name")
  else
    none

/-- validateArguments, from `internal/requests/requests.go`.  The Go doc
comment above it reads: The valid Arguments cases are: no arguments, or
both execute and init (each quoted in the Go comment).  The body: an empty map is accepted; a map
with more than two entries is rejected; a map with a key other than
"execute" or "init" is rejected; everything else is accepted. -/
def validateArguments (arguments : List (String × List String)) : Option ValidationError :=
  if arguments.length = 0 then
    none
  else if arguments.length > 2 then
    some .argumentsNotExecuteInit
  else if arguments.any (fun kv => kv.1 ≠ "execute" && kv.1 ≠ "init") then
    some .argumentsNotExecuteInit
  else
    none

/-- validateParameters, from `internal/requests/requests.go`.
`execute_container_image_uri` is required and its URI format is validated;
`pre_container_image_uri` is optional but validated when present.
`isValidImageURI` is the verdict of the external
`distribution/reference.ParseAnyReference` call (a parameter here). -/
def validateParameters (isValidImageURI : String → Bool)
    (parameters : List (String × String)) : Option ValidationError :=
  match parameters.lookup "execute_container_image_uri" with
  | none => some .executeImageURIRequired
  | some val =>
    if !isValidImageURI val then
      some .executeImageURIInvalid
    else
      match parameters.lookup "pre_container_image_uri" with
      | some val2 => if !isValidImageURI val2 then some .preImageURIInvalid else none
      | none => none

/-- CreateWorkflow.Validate with no optional validations: the ordered
pipeline struct constraints, then validateArguments, then
validateParameters, by validations.Validate. -/
def CreateWorkflow.Validate (isValidImageURI : String → Bool)
    (req : CreateWorkflow) : Option ValidationError :=
  validateAll
    [validateStructCreateWorkflow req,
     validateArguments req.arguments,
     validateParameters isValidImageURI req.parameters]

/-- TargetProperties for target requests.  PolicyArns is a Go slice. -/
structure TargetProperties where
  credentialType : String
  policyArns     : List String
  policyDocument : String
  roleArn        : String
deriving DecidableEq, Repr

/-- CreateTarget request. -/
structure CreateTarget where
  name       : String
  properties : TargetProperties
  type       : String
deriving DecidableEq, Repr

/-- govalidator `ValidateStruct` on CreateTarget.  Only Name is tagged
(`required`, `alphanumunderscore`, `stringlength(4|32)`); the nested
TargetProperties struct carries no `valid` tags, so govalidator checks
nothing inside it. -/
def validateStructCreateTarget (req : CreateTarget) : Option ValidationError :=
  if req.name = "" then
    some (.requiredField "name")
  else if !isAlphaNumbericUnderscore req.name then
    some (.alphanumUnderscoreField "name")
  else if !stringLengthBetween 4 32 req.name then
    some (.lengthField "name")
  else
    none

/-- validateTargetProperties, from `internal/requests/requests.go`:
credential type must be "vault"; the role ARN must satisfy
validations.IsValidARN; at most 5 policy ARNs; every policy ARN must
satisfy IsValidARN.  `isValidARN` is the verdict of the external
`aws-sdk-go` `arn.IsARN` call (a parameter here). -/
def validateTargetProperties (isValidARN : String → Bool)
    (req : CreateTarget) : Option ValidationError :=
  if req.properties.credentialType ≠ "vault" then
    some .credentialTypeNotVault
  else if !isValidARN req.properties.roleArn then
    some .roleArnInvalid
  else if req.properties.policyArns.length > 5 then
    some .tooManyPolicyArns
  else if req.properties.policyArns.any (fun a => !isValidARN a) then
    some .policyArnInvalid
  else
    none

/-- CreateTarget.Validate: reject first unless Type equals "aws_account",
then run the pipeline struct constraints, then validateTargetProperties. -/
def CreateTarget.Validate (isValidARN : String → Bool)
    (req : CreateTarget) : Option ValidationError :=
  if req.type ≠ "aws_account" then
    some .targetTypeNotAwsAccount
  else
    validateAll
      [validateStructCreateTarget req,
       validateTargetProperties isValidARN req]

/-- TargetOperation request: Path (`required`), SHA (`required`,
`alphanum`), Type (`required`). -/
structure TargetOperation where
  path : String
  sha  : String
  type : String
deriving DecidableEq, Repr

/-- TargetOperation.Validate = govalidator ValidateStruct over the three
tagged fields, in declaration order; an empty value is only checked for
required, a non-empty SHA must additionally be alphanumeric. -/
def TargetOperation.Validate (req : TargetOperation) : Option ValidationError :=
  if req.path = "" then
    some (.requiredField "path")
  else if req.sha = "" then
    some (.requiredField "sha")
  else if !isAlphanumGo req.sha then
    some (.alphanumField "sha")
  else if req.type = "" then
    some (.requiredField "type")
  else
    none


/-! ## The gitURI rule (`internal/validations/validations.go`)

isValidGitURI runs Go `regexp.MatchString` with the pattern

  ((git|ssh|https)|(git@[\w\.]+))(:(//)?)([\w\.@\:/\-~]+)(\.git)(/)?

`MatchString` is UNANCHORED: it reports whether SOME substring of the input
matches the pattern.  The pattern is a plain concatenation of five groups
with no anchors, so a match exists iff at some start position the input
continues with: one alternative of the scheme group, then the separator
group, then a non-empty run of path characters, then the literal `.git`
(the optional trailing slash and everything after the match are
unconstrained, so they impose nothing on existence).  The matcher below
spells out exactly those alternatives. -/

/-- The `[\w\.]` class of the git@host alternative: word char or dot. -/
def isHostChar (c : Char) : Bool :=
  isWordChar c || c = '.'

/-- The `[\w\.@\:/\-~]` class of the path group. -/
def isPathChar (c : Char) : Bool :=
  isWordChar c || c = '.' || c = '@' || c = ':' || c = '/' || c = '-' || c = '~'

/-- Literal `.git` starts here (the tail of the pattern; the optional
trailing slash and the rest of the input are unconstrained). -/
def dotGitHere (l : List Char) : Bool :=
  ".git".data.isPrefixOf l

/-- Group 4 then group 5 of the pattern: a non-empty run of path characters
followed by the literal `.git`.  The run is tried at every length. -/
def matchPath : List Char → Bool
  | [] => false
  | c :: rest => isPathChar c && (dotGitHere rest || matchPath rest)

/-- Group 3 of the pattern, `:(//)?`, followed by the path and `.git`:
either a lone colon or colon-slash-slash. -/
def matchSepPath (l : List Char) : Bool :=
  (":".data.isPrefixOf l && matchPath (l.drop 1)) ||
  ("://".data.isPrefixOf l && matchPath (l.drop 3))

/-- The host part of the `git@[\w\.]+` alternative: a non-empty run of
host characters followed by the separator, path and `.git`.  The run is
tried at every length. -/
def matchHost : List Char → Bool
  | [] => false
  | c :: rest => isHostChar c && (matchSepPath rest || matchHost rest)

/-- The full pattern matched at this position: one alternative of
`(git|ssh|https)|(git@[\w\.]+)`, then separator, path and `.git`. -/
def matchScheme (l : List Char) : Bool :=
  ("git".data.isPrefixOf l && matchSepPath (l.drop 3)) ||
  ("ssh".data.isPrefixOf l && matchSepPath (l.drop 3)) ||
  ("https".data.isPrefixOf l && matchSepPath (l.drop 5)) ||
  ("git@".data.isPrefixOf l && matchHost (l.drop 4))

/-- Unanchored search: try the pattern at every start position, as Go
`regexp.MatchString` does. -/
def matchAnywhere : List Char → Bool
  | [] => false
  | c :: rest => matchScheme (c :: rest) || matchAnywhere rest

/-- isValidGitURI, from `internal/validations/validations.go`: true iff the
unanchored pattern above matches somewhere in the string. -/
def isValidGitURI (s : String) : Bool :=
  matchAnywhere s.data


/-! ## Declarative reading of the gitURI pattern

The following two predicates restate the pattern of isValidGitURI
declaratively (per the refinement claim about it); the characterization
theorems below prove the executable matcher equivalent to them. -/

/-- Declarative reading of one alternative of the scheme group
of the gitURI pattern. -/
def SchemeToken (a : List Char) : Prop :=
  a = "git".data ∨ a = "ssh".data ∨ a = "https".data ∨
  ∃ h, a = "git@".data ++ h ∧ h ≠ [] ∧ ∀ ch ∈ h, isHostChar ch = true

/-- Declarative reading of an unanchored match of the gitURI pattern:
somewhere in the input, a scheme token, then a colon optionally followed
by two slashes, then a non-empty run of path characters, then the literal
dot-g-i-t, then anything. -/
def GitPatternMatch (l : List Char) : Prop :=
  ∃ pre a sep p rest,
    l = pre ++ a ++ sep ++ p ++ ('.' :: 'g' :: 'i' :: 't' :: rest) ∧
    SchemeToken a ∧ (sep = [':'] ∨ sep = [':', '/', '/']) ∧
    p ≠ [] ∧ ∀ ch ∈ p, isPathChar ch = true

/-! ## Operation client (the `api` package)

The client functions are embedded with the HTTP transport as an explicit
parameter (the `httpClient.Do` interface of the Go code) and they return,
besides the result of the Go function, the list of requests handed to the
transport, in order — this makes "no HTTP request is issued" a statement
about the embedded function.  Request bodies are kept as the typed values
that the Go code passes to `json.Marshal` (marshalling of these flat
structs is deterministic and total, so nothing is lost for the properties
below).  Response JSON decoding (`json.Unmarshal` into the response type)
is an external call and is a `parse` parameter. -/

/-- TargetOperationInput represents the input to a targetOperation. -/
structure TargetOperationInput where
  path        : String
  projectName : String
  sha         : String
  targetName  : String
deriving DecidableEq, Repr

/-- ExecuteWorkflow request payload.  Modelled from the spec: the
`requests.ExecuteWorkflow` type posted by the client is not under `src/`;
section 6 of the spec gives its body fields (arguments,
environment_variables, framework, parameters, project_name, target_name,
type, workflow_template_name), the same shape as CreateWorkflow. -/
structure ExecuteWorkflow where
  arguments            : List (String × List String)
  environmentVariables : List (String × String)
  framework            : String
  parameters           : List (String × String)
  projectName          : String
  targetName           : String
  type                 : String
  workflowTemplateName : String
deriving DecidableEq, Repr

/-- targetOperationResponse: a response to a target operation. -/
structure TargetOperationResponse where
  workflowName : String
deriving DecidableEq, Repr

/-- Body of an outgoing request, as the typed value handed to
`json.Marshal` (GET requests carry none). -/
inductive RequestBody where
  | empty
  | targetOp (op : TargetOperation)
  | executeWorkflow (wf : ExecuteWorkflow)
deriving DecidableEq, Repr

/-- One outgoing HTTP request as the Go code builds it: method, full URL,
added headers (in `Header.Add` order) and body. -/
structure HttpRequest where
  method  : String
  url     : String
  headers : List (String × String)
  body    : RequestBody
deriving DecidableEq, Repr

/-- One HTTP response as the transport delivers it: status code, the bytes
the body yields, and — when the body read fails after those bytes — the
read error. -/
structure HttpResponse where
  status  : Nat
  body    : String
  readErr : Option String
deriving DecidableEq, Repr

/-- The `httpClient.Do` interface: either a transport error (the non-nil
`err` of `Do`) or a response. -/
abbrev Transport : Type :=
  HttpRequest → Except String HttpResponse

/-- Client represents an API client (the TLS transport setup of NewClient
is outside this model; the endpoint and token are what the operations
read). -/
structure Client where
  authToken : String
  endpoint  : String
deriving DecidableEq, Repr

/-- The typed errors an operation returns, one constructor per
`fmt.Errorf` site of the Go client. -/
inductive ApiError where
  /-- A request validation error, returned before any HTTP request. -/
  | validation (e : ValidationError)
  /-- Go message: unable to make api call (wrapping the transport error). -/
  | transportFailure (msg : String)
  /-- Go message: error reading response body (status code and cause). -/
  | bodyRead (status : Nat) (msg : String)
  /-- Go message: received unexpected status code. -/
  | unexpectedStatus (status : Nat)
  /-- Go message: unable to parse response. -/
  | decodeFailure (body : String)
deriving DecidableEq, Repr

namespace Api

/-- Constant diff of the api package. -/
def diff : String := "diff"

/-- Constant sync of the api package. -/
def sync : String := "sync"

/-- getRequest: build a GET request with no headers, send it, read the
whole body, then require status exactly 200 and return the raw body. -/
def getRequest (c : Client) (tr : Transport) (url : String) :
    List HttpRequest × Except ApiError String :=
  let req : HttpRequest := { method := "GET", url := url, headers := [], body := .empty }
  match tr req with
  | .error e => ([req], .error (.transportFailure e))
  | .ok resp =>
    match resp.readErr with
    | some e => ([req], .error (.bodyRead resp.status e))
    | none =>
      if resp.status ≠ 200 then ([req], .error (.unexpectedStatus resp.status))
      else ([req], .ok resp.body)

/-- GetWorkflowStatus: GET endpoint/workflows/name via getRequest, then
decode. -/
def GetWorkflowStatus {α : Type} (parse : String → Option α)
    (c : Client) (tr : Transport) (workflowName : String) :
    List HttpRequest × Except ApiError α :=
  match getRequest c tr (c.endpoint ++ "/workflows/" ++ workflowName) with
  | (reqs, .error e) => (reqs, .error e)
  | (reqs, .ok body) =>
    match parse body with
    | none => (reqs, .error (.decodeFailure body))
    | some out => (reqs, .ok out)

/-- GetWorkflows: GET endpoint/projects/p/targets/t/workflows via
getRequest, then decode. -/
def GetWorkflows {α : Type} (parse : String → Option α)
    (c : Client) (tr : Transport) (project target : String) :
    List HttpRequest × Except ApiError α :=
  match getRequest c tr
      (c.endpoint ++ "/projects/" ++ project ++ "/targets/" ++ target ++ "/workflows") with
  | (reqs, .error e) => (reqs, .error e)
  | (reqs, .ok body) =>
    match parse body with
    | none => (reqs, .error (.decodeFailure body))
    | some out => (reqs, .ok out)

/-- GetLogs: GET endpoint/workflows/name/logs via getRequest, then decode. -/
def GetLogs {α : Type} (parse : String → Option α)
    (c : Client) (tr : Transport) (workflowName : String) :
    List HttpRequest × Except ApiError α :=
  match getRequest c tr (c.endpoint ++ "/workflows/" ++ workflowName ++ "/logs") with
  | (reqs, .error e) => (reqs, .error e)
  | (reqs, .ok body) =>
    match parse body with
    | none => (reqs, .error (.decodeFailure body))
    | some out => (reqs, .ok out)

/-- StreamLogs: GET endpoint/workflows/name/logstream with no headers; on
a non-200 status return the unexpected-status error without copying; on
200 copy the body to the sink as it arrives (io.Copy), surfacing a
mid-stream read failure as a wrapped read error; the Go code then
re-checks the status (unreachable, kept as written).  The second component
of the result is the content the caller-supplied sink received. -/
def StreamLogs (c : Client) (tr : Transport) (workflowName : String) :
    List HttpRequest × String × Except ApiError Unit :=
  let url := c.endpoint ++ "/workflows/" ++ workflowName ++ "/logstream"
  let req : HttpRequest := { method := "GET", url := url, headers := [], body := .empty }
  match tr req with
  | .error e => ([req], "", .error (.transportFailure e))
  | .ok resp =>
    if resp.status ≠ 200 then
      ([req], "", .error (.unexpectedStatus resp.status))
    else
      match resp.readErr with
      | some e => ([req], resp.body, .error (.bodyRead resp.status e))
      | none =>
        if resp.status ≠ 200 then
          ([req], resp.body, .error (.unexpectedStatus resp.status))
        else
          ([req], resp.body, .ok ())

/-- targetOperation: build the TargetOperation request from the input and
the operation type, validate it, and only if validation passes POST it to
endpoint/projects/p/targets/t/operations with the Authorization header set
to the stored token, accepting any 2xx status. -/
def targetOperation (c : Client) (tr : Transport)
    (parse : String → Option TargetOperationResponse)
    (input : TargetOperationInput) (operationType : String) :
    List HttpRequest × Except ApiError TargetOperationResponse :=
  let url := c.endpoint ++ "/projects/" ++ input.projectName ++ "/targets/"
      ++ input.targetName ++ "/operations"
  let targetReq : TargetOperation :=
    { path := input.path, sha := input.sha, type := operationType }
  match TargetOperation.Validate targetReq with
  | some e => ([], .error (.validation e))
  | none =>
    let req : HttpRequest :=
      { method := "POST", url := url,
        headers := [("Authorization", c.authToken)], body := .targetOp targetReq }
    match tr req with
    | .error e => ([req], .error (.transportFailure e))
    | .ok resp =>
      match resp.readErr with
      | some e => ([req], .error (.bodyRead resp.status e))
      | none =>
        if resp.status ≥ 300 || resp.status < 200 then
          ([req], .error (.unexpectedStatus resp.status))
        else
          match parse resp.body with
          | none => ([req], .error (.decodeFailure resp.body))
          | some out => ([req], .ok out)

/-- Diff submits a diff for the provided project target. -/
def Diff (c : Client) (tr : Transport)
    (parse : String → Option TargetOperationResponse)
    (input : TargetOperationInput) :
    List HttpRequest × Except ApiError TargetOperationResponse :=
  targetOperation c tr parse input diff

/-- Sync submits a sync for the provided project target. -/
def Sync (c : Client) (tr : Transport)
    (parse : String → Option TargetOperationResponse)
    (input : TargetOperationInput) :
    List HttpRequest × Except ApiError TargetOperationResponse :=
  targetOperation c tr parse input sync

/-- ExecuteWorkflow submits a workflow execution request: POST the input
to endpoint/workflows with the Authorization header set to the stored
token, accepting any 2xx status; no request validation is performed. -/
def ExecuteWorkflowOp {α : Type} (parse : String → Option α)
    (c : Client) (tr : Transport) (input : ExecuteWorkflow) :
    List HttpRequest × Except ApiError α :=
  let req : HttpRequest :=
    { method := "POST", url := c.endpoint ++ "/workflows",
      headers := [("Authorization", c.authToken)], body := .executeWorkflow input }
  match tr req with
  | .error e => ([req], .error (.transportFailure e))
  | .ok resp =>
    match resp.readErr with
    | some e => ([req], .error (.bodyRead resp.status e))
    | none =>
      if resp.status ≥ 300 || resp.status < 200 then
        ([req], .error (.unexpectedStatus resp.status))
      else
        match parse resp.body with
        | none => ([req], .error (.decodeFailure resp.body))
        | some out => ([req], .ok out)

end Api

end ArgoCloudOps

namespace ArgoCloudOps

/-! ## Concrete example values

Closed values used by witness and counterexample theorems below. -/

/-- Example client with a distinguishable token. -/
def exClient : Client := { authToken := "tok", endpoint := "http://e" }

/-- Example transport answering every request with an empty 200 response. -/
def exTransport : Transport :=
  fun _ => .ok { status := 200, body := "", readErr := none }

/-- Example response decoder for target operations. -/
def exParseT : String → Option TargetOperationResponse :=
  fun _ => some { workflowName := "wf1" }

/-- Example identity-style response decoder. -/
def exParseS : String → Option String := fun s => some s

/-- Example target-operation input that passes validation. -/
def exInputOk : TargetOperationInput :=
  { path := "p", projectName := "proj", sha := "abc123", targetName := "targ" }

/-- Example ExecuteWorkflow payload. -/
def exExecuteWorkflow : ExecuteWorkflow :=
  { arguments := [], environmentVariables := [], framework := "",
    parameters := [], projectName := "", targetName := "", type := "",
    workflowTemplateName := "" }

/-- The POST request the example Diff call issues. -/
def exDiffRequest : HttpRequest :=
  { method := "POST",
    url := "http://e/projects/proj/targets/targ/operations",
    headers := [("Authorization", "tok")],
    body := .targetOp { path := "p", sha := "abc123", type := "diff" } }

/-- The GET request the example GetWorkflowStatus call issues. -/
def exStatusRequest : HttpRequest :=
  { method := "GET", url := "http://e/workflows/wf", headers := [], body := .empty }

/-! ## Sanity examples -/

example : validateArguments [] = none := rfl
example : validateArguments [("execute", ["a"]), ("init", ["b"])] = none := rfl
example : validateArguments [("execute", []), ("init", []), ("extra", [])]
    = some .argumentsNotExecuteInit := rfl
example : validateArguments [("bogus", [])] = some .argumentsNotExecuteInit := rfl
example : isValidGitURI "https://github.com/argoproj-labs/argo-cloudops.git" = true := rfl
example : isValidGitURI "git@github.com:argoproj-labs/argo-cloudops.git" = true := rfl
example : isValidGitURI "https://host/repo" = false := rfl
example : isValidGitURI "" = false := rfl

/-! ## Claim C1 -/

/-- C1: the Arguments-map validation at the disputed input.  The claim (and
the Go doc comment directly above validateArguments) says a map whose only
key is "execute" is invalid because only one of the two required keys is
present; the code ACCEPTS it — validateArguments returns no error for the
singleton map with key "execute" (and likewise for "init"), contradicting
its own documentation. -/
theorem c1_validateArguments_accepts_singleton_execute :
    validateArguments [("execute", [])] = none ∧
    validateArguments [("init", [])] = none := ⟨rfl, rfl⟩

/-! ## Claim C4 -/

/-- C4 counterexample: the claim says isValidArgument returns false for any
map whose key set is not a subset of the two allowed keys, in particular
for a map mixing an allowed key with a disallowed one; the code returns
true for the key list containing "execute" and "bogus", although that key
set is not a subset of the allowed pair. -/
theorem c4_isValidArgument_mixed_keys_counterexample :
    isValidArgument ["execute", "bogus"] = true ∧
    ¬ (∀ k ∈ ["execute", "bogus"], k = "execute" ∨ k = "init") := by
  constructor
  · rfl
  · intro h
    have hb := h "bogus" (by simp)
    simp at hb

/-- C4 amended: isValidArgument returns true iff the map has at least one
key equal to "execute" or "init"; other keys are not inspected, so a map
mixing an allowed key with disallowed ones is still accepted, and only a
map containing neither allowed key (including the empty map) is rejected. -/
theorem c4_isValidArgument_iff (keys : List String) :
    isValidArgument keys = true ↔ ∃ k ∈ keys, k = "execute" ∨ k = "init" := by
  simp [isValidArgument, List.any_eq_true]

/-! ## Claim C7 -/

/-- C7: CreateTarget.Validate rejects any request whose Type differs from
"aws_account" with the type-membership error, regardless of every other
field — the struct constraints and the TargetProperties checks are never
consulted (the result is the same for every name and every properties
value, and for every ARN predicate). -/
theorem c7_createTarget_wrong_type_short_circuits
    (isValidARN : String → Bool) (req : CreateTarget)
    (h : req.type ≠ "aws_account") :
    CreateTarget.Validate isValidARN req = some .targetTypeNotAwsAccount := by
  simp [CreateTarget.Validate, h]

/-- C7 witness: a concrete request with an out-of-membership type and
otherwise invalid fields is rejected with exactly the type error. -/
theorem c7_witness :
    CreateTarget.Validate (fun _ => false)
      { name := "",
        properties := { credentialType := "", policyArns := [],
                        policyDocument := "", roleArn := "" },
        type := "gcp_account" } = some .targetTypeNotAwsAccount :=
  c7_createTarget_wrong_type_short_circuits (fun _ => false) _ (by decide)

/-! ## Claim C9 -/

/-- C9: CreateTarget.Validate never inspects Properties.PolicyDocument —
two requests that differ only in that field validate identically (for
every ARN predicate), and consequently a request that validates cleanly
still does so after its policy document is replaced by any string. -/
theorem c9_validate_ignores_policyDocument
    (isValidARN : String → Bool) (req : CreateTarget) (d1 d2 : String) :
    CreateTarget.Validate isValidARN
        { req with properties := { req.properties with policyDocument := d1 } }
      = CreateTarget.Validate isValidARN
        { req with properties := { req.properties with policyDocument := d2 } } ∧
    (CreateTarget.Validate isValidARN req = none →
      CreateTarget.Validate isValidARN
        { req with properties := { req.properties with policyDocument := d1 } } = none) := by
  constructor
  · rfl
  · intro h
    exact h

/-- C9 witness: a concrete valid request stays valid after its policy
document is swapped for another string. -/
theorem c9_witness :
    CreateTarget.Validate (fun _ => true)
      { name := "abcd",
        properties := { credentialType := "vault", policyArns := [],
                        policyDocument := "an arbitrary document", roleArn := "a" },
        type := "aws_account" } = none :=
  (c9_validate_ignores_policyDocument (fun _ => true)
      { name := "abcd",
        properties := { credentialType := "vault", policyArns := [],
                        policyDocument := "", roleArn := "a" },
        type := "aws_account" } "an arbitrary document" "").2 (by decide)

/-! ## Claim C10 -/

/-- C10: CreateWorkflow.Validate with no optional validations never
inspects Type, Framework, EnvironmentVariables or WorkflowTemplateName —
two requests differing only in those fields validate identically (for
every image-URI predicate), and in particular a request that validates
cleanly still does so after Type is replaced by the empty string. -/
theorem c10_validate_ignores_type_framework_env_template
    (isValidImageURI : String → Bool) (req : CreateWorkflow)
    (t f : String) (ev : List (String × String)) (w : String) :
    CreateWorkflow.Validate isValidImageURI
        { req with type := t, framework := f,
                   environmentVariables := ev, workflowTemplateName := w }
      = CreateWorkflow.Validate isValidImageURI req ∧
    (CreateWorkflow.Validate isValidImageURI req = none →
      CreateWorkflow.Validate isValidImageURI { req with type := "" } = none) := by
  constructor
  · rfl
  · intro h
    exact h

/-- C10 witness: a concrete request that validates cleanly keeps doing so
with its Type emptied. -/
theorem c10_witness :
    CreateWorkflow.Validate (fun _ => true)
      { arguments := [], environmentVariables := [("K", "V")],
        framework := "terraform",
        parameters := [("execute_container_image_uri", "img")],
        projectName := "proj1", targetName := "target1",
        type := "", workflowTemplateName := "tpl" } = none :=
  (c10_validate_ignores_type_framework_env_template (fun _ => true)
      { arguments := [], environmentVariables := [("K", "V")],
        framework := "terraform",
        parameters := [("execute_container_image_uri", "img")],
        projectName := "proj1", targetName := "target1",
        type := "sync", workflowTemplateName := "tpl" } "" "" [] "").2 (by decide)

/-! ## Claim C8 -/

/-- C8: CreateWorkflow parameters validation succeeds iff the map contains
execute_container_image_uri with a value the image-URI predicate accepts
and, when pre_container_image_uri is present, its value is accepted too;
and a map without the execute key fails with exactly the error citing that
missing parameter. -/
theorem c8_validateParameters_characterization
    (isValidImageURI : String → Bool) (parameters : List (String × String)) :
    (validateParameters isValidImageURI parameters = none ↔
      ∃ v, parameters.lookup "execute_container_image_uri" = some v ∧
        isValidImageURI v = true ∧
        ∀ w, parameters.lookup "pre_container_image_uri" = some w →
          isValidImageURI w = true) ∧
    (parameters.lookup "execute_container_image_uri" = none →
      validateParameters isValidImageURI parameters = some .executeImageURIRequired) := by
  constructor
  · unfold validateParameters
    cases hex : parameters.lookup "execute_container_image_uri" with
    | none => simp
    | some v =>
      cases hu : isValidImageURI v with
      | false => simp [hu]
      | true =>
        cases hpre : parameters.lookup "pre_container_image_uri" with
        | none => simp [hu, hpre]
        | some w => cases hw : isValidImageURI w <;> simp [hu, hpre, hw]
  · intro h
    unfold validateParameters
    rw [h]

/-- C8 witness: the empty parameters map is rejected with the
missing-execute-parameter error. -/
theorem c8_witness :
    validateParameters (fun _ => true) [] = some .executeImageURIRequired :=
  (c8_validateParameters_characterization (fun _ => true) []).2 rfl

end ArgoCloudOps

namespace ArgoCloudOps

/-! ## Claim C2 -/

/-- Every request targetOperation hands to the transport is the POST of
exactly the TargetOperation built from the input and the operation type,
with the Authorization header set to the stored token. -/
theorem targetOperation_request_shape (c : Client) (tr : Transport)
    (parse : String → Option TargetOperationResponse)
    (input : TargetOperationInput) (operationType : String) :
    ∀ r ∈ (Api.targetOperation c tr parse input operationType).1,
      r.method = "POST" ∧
      r.headers = [("Authorization", c.authToken)] ∧
      r.body = .targetOp { path := input.path, sha := input.sha, type := operationType } := by
  intro r hr
  simp only [Api.targetOperation] at hr
  split at hr
  · simp at hr
  · split at hr
    · simp at hr
      subst hr
      exact ⟨rfl, rfl, rfl⟩
    · split at hr
      · simp at hr
        subst hr
        exact ⟨rfl, rfl, rfl⟩
      · split at hr
        · simp at hr
          subst hr
          exact ⟨rfl, rfl, rfl⟩
        · split at hr <;>
            (simp at hr; subst hr; exact ⟨rfl, rfl, rfl⟩)

/-- If the TargetOperation built by targetOperation fails validation, the
validation error is returned and the transport is never invoked. -/
theorem targetOperation_validation_gate (c : Client) (tr : Transport)
    (parse : String → Option TargetOperationResponse)
    (input : TargetOperationInput) (operationType : String) (e : ValidationError)
    (h : TargetOperation.Validate
        { path := input.path, sha := input.sha, type := operationType } = some e) :
    Api.targetOperation c tr parse input operationType = ([], .error (.validation e)) := by
  simp only [Api.targetOperation]
  rw [h]

/-- C2: Diff and Sync both construct the TargetOperation request from the
input — the same path and sha, differing only in the type discriminator
("diff" for Diff, "sync" for Sync) — validate it before sending, and on a
validation failure return that validation error with no HTTP request
issued; when a request is issued, its body is exactly that TargetOperation
value. -/
theorem c2_diff_sync_validate_before_send (c : Client) (tr : Transport)
    (parse : String → Option TargetOperationResponse) (input : TargetOperationInput) :
    (∀ e, TargetOperation.Validate
        { path := input.path, sha := input.sha, type := Api.diff } = some e →
      Api.Diff c tr parse input = ([], .error (.validation e))) ∧
    (∀ e, TargetOperation.Validate
        { path := input.path, sha := input.sha, type := Api.sync } = some e →
      Api.Sync c tr parse input = ([], .error (.validation e))) ∧
    (∀ r ∈ (Api.Diff c tr parse input).1,
      r.method = "POST" ∧
      r.body = .targetOp { path := input.path, sha := input.sha, type := Api.diff }) ∧
    (∀ r ∈ (Api.Sync c tr parse input).1,
      r.method = "POST" ∧
      r.body = .targetOp { path := input.path, sha := input.sha, type := Api.sync }) := by
  refine ⟨?_, ?_, ?_, ?_⟩
  · intro e h
    exact targetOperation_validation_gate c tr parse input Api.diff e h
  · intro e h
    exact targetOperation_validation_gate c tr parse input Api.sync e h
  · intro r hr
    have h := targetOperation_request_shape c tr parse input Api.diff r hr
    exact ⟨h.1, h.2.2⟩
  · intro r hr
    have h := targetOperation_request_shape c tr parse input Api.sync r hr
    exact ⟨h.1, h.2.2⟩

/-- C2 witness: a concrete input with an empty path fails TargetOperation
validation, and Diff returns that error having issued no request. -/
theorem c2_witness :
    Api.Diff { authToken := "tok", endpoint := "http://e" }
      (fun _ => .ok { status := 200, body := "", readErr := none })
      (fun _ => some { workflowName := "wf1" })
      { path := "", projectName := "proj", sha := "abc123", targetName := "targ" }
      = ([], .error (.validation (.requiredField "path"))) :=
  (c2_diff_sync_validate_before_send
      { authToken := "tok", endpoint := "http://e" }
      (fun _ => .ok { status := 200, body := "", readErr := none })
      (fun _ => some { workflowName := "wf1" })
      { path := "", projectName := "proj", sha := "abc123", targetName := "targ" }).1
    (.requiredField "path") (by decide)

end ArgoCloudOps

namespace ArgoCloudOps

/-! ## Claim C3 -/

/-- Every request getRequest hands to the transport is a GET with an empty
header list. -/
theorem getRequest_request_shape (c : Client) (tr : Transport) (url : String) :
    ∀ r ∈ (Api.getRequest c tr url).1, r.method = "GET" ∧ r.headers = [] := by
  intro r hr
  simp only [Api.getRequest] at hr
  split at hr
  · simp at hr
    subst hr
    exact ⟨rfl, rfl⟩
  · split at hr
    · simp at hr
      subst hr
      exact ⟨rfl, rfl⟩
    · split at hr <;> (simp at hr; subst hr; exact ⟨rfl, rfl⟩)

/-- GetWorkflowStatus issues exactly the requests of its getRequest call. -/
theorem getWorkflowStatus_requests {α : Type} (parse : String → Option α)
    (c : Client) (tr : Transport) (workflowName : String) :
    (Api.GetWorkflowStatus parse c tr workflowName).1
      = (Api.getRequest c tr (c.endpoint ++ "/workflows/" ++ workflowName)).1 := by
  simp only [Api.GetWorkflowStatus]
  split
  next heq => rw [heq]
  next body heq =>
    rw [heq]
    split <;> rfl

/-- GetWorkflows issues exactly the requests of its getRequest call. -/
theorem getWorkflows_requests {α : Type} (parse : String → Option α)
    (c : Client) (tr : Transport) (project target : String) :
    (Api.GetWorkflows parse c tr project target).1
      = (Api.getRequest c tr
          (c.endpoint ++ "/projects/" ++ project ++ "/targets/" ++ target
            ++ "/workflows")).1 := by
  simp only [Api.GetWorkflows]
  split
  next heq => rw [heq]
  next body heq =>
    rw [heq]
    split <;> rfl

/-- GetLogs issues exactly the requests of its getRequest call. -/
theorem getLogs_requests {α : Type} (parse : String → Option α)
    (c : Client) (tr : Transport) (workflowName : String) :
    (Api.GetLogs parse c tr workflowName).1
      = (Api.getRequest c tr (c.endpoint ++ "/workflows/" ++ workflowName ++ "/logs")).1 := by
  simp only [Api.GetLogs]
  split
  next heq => rw [heq]
  next body heq =>
    rw [heq]
    split <;> rfl

/-- C3 counterexample: the claim says every operation except
GetWorkflowStatus and GetWorkflows — in particular StreamLogs — attaches
an Authorization header; evaluating StreamLogs on a concrete client and
transport shows it issues exactly one request and that request carries no
header at all. -/
theorem c3_streamLogs_no_authorization_counterexample :
    ((Api.StreamLogs { authToken := "tok", endpoint := "http://e" }
        (fun _ => .ok { status := 200, body := "", readErr := none }) "wf").1.map
      HttpRequest.headers) = [[]] := rfl

/-- C3 amended: exactly the three POST operations — Diff, Sync and
ExecuteWorkflow — attach an Authorization header, set to the stored token
verbatim with no scheme prefix; the four GET operations (GetWorkflowStatus,
GetWorkflows, GetLogs and StreamLogs — not only the two pure read/status
queries of the claim) attach no header at all. -/
theorem c3_authorization_header_by_operation {α : Type}
    (parse : String → Option α) (parseT : String → Option TargetOperationResponse)
    (c : Client) (tr : Transport) (input : TargetOperationInput)
    (ew : ExecuteWorkflow) (workflowName project target : String) :
    (∀ r ∈ (Api.Diff c tr parseT input).1,
      r.headers = [("Authorization", c.authToken)]) ∧
    (∀ r ∈ (Api.Sync c tr parseT input).1,
      r.headers = [("Authorization", c.authToken)]) ∧
    (∀ r ∈ (Api.ExecuteWorkflowOp parse c tr ew).1,
      r.headers = [("Authorization", c.authToken)]) ∧
    (∀ r ∈ (Api.GetWorkflowStatus parse c tr workflowName).1, r.headers = []) ∧
    (∀ r ∈ (Api.GetWorkflows parse c tr project target).1, r.headers = []) ∧
    (∀ r ∈ (Api.GetLogs parse c tr workflowName).1, r.headers = []) ∧
    (∀ r ∈ (Api.StreamLogs c tr workflowName).1, r.headers = []) := by
  refine ⟨?_, ?_, ?_, ?_, ?_, ?_, ?_⟩
  · intro r hr
    exact (targetOperation_request_shape c tr parseT input Api.diff r hr).2.1
  · intro r hr
    exact (targetOperation_request_shape c tr parseT input Api.sync r hr).2.1
  · intro r hr
    simp only [Api.ExecuteWorkflowOp] at hr
    split at hr
    · simp at hr
      subst hr
      rfl
    · split at hr
      · simp at hr
        subst hr
        rfl
      · split at hr <;> first
          | (simp at hr; subst hr; rfl)
          | (split at hr <;> (simp at hr; subst hr; rfl))
  · intro r hr
    rw [getWorkflowStatus_requests] at hr
    exact (getRequest_request_shape c tr _ r hr).2
  · intro r hr
    rw [getWorkflows_requests] at hr
    exact (getRequest_request_shape c tr _ r hr).2
  · intro r hr
    rw [getLogs_requests] at hr
    exact (getRequest_request_shape c tr _ r hr).2
  · intro r hr
    simp only [Api.StreamLogs] at hr
    split at hr
    · simp at hr
      subst hr
      rfl
    · split at hr <;> first
        | (simp at hr; subst hr; rfl)
        | (split at hr <;> first
            | (simp at hr; subst hr; rfl)
            | (split at hr <;> (simp at hr; subst hr; rfl)))

/-- C3 witness: on a concrete valid Diff call the one issued request
carries exactly the Authorization header with the stored token, and a
concrete GetWorkflowStatus call issues a request with no header. -/
theorem c3_witness :
    (∃ r ∈ (Api.Diff exClient exTransport exParseT exInputOk).1,
      r.headers = [("Authorization", "tok")]) ∧
    (∃ r ∈ (Api.GetWorkflowStatus exParseS exClient exTransport "wf").1,
      r.headers = []) := by
  constructor
  · refine ⟨exDiffRequest, by decide, ?_⟩
    exact (c3_authorization_header_by_operation exParseS exParseT exClient
        exTransport exInputOk exExecuteWorkflow "wf" "proj" "targ").1
      exDiffRequest (by decide)
  · refine ⟨exStatusRequest, by decide, ?_⟩
    exact (c3_authorization_header_by_operation exParseS exParseT exClient
        exTransport exInputOk exExecuteWorkflow "wf" "proj" "targ").2.2.2.1
      exStatusRequest (by decide)

/-! ## Claim C6 -/

/-- C6: StreamLogs against a transport whose response has status 200 and a
body that yields its bytes and then closes delivers exactly those bytes to
the caller-supplied sink and reports success; against a response with any
other status, the sink receives nothing and the call reports the
unexpected-status error for that code. -/
theorem c6_streamLogs_status_behavior (c : Client) (workflowName : String)
    (resp : HttpResponse) :
    (resp.status = 200 → resp.readErr = none →
      (Api.StreamLogs c (fun _ => .ok resp) workflowName).2 = (resp.body, .ok ())) ∧
    (resp.status ≠ 200 →
      (Api.StreamLogs c (fun _ => .ok resp) workflowName).2
        = ("", .error (.unexpectedStatus resp.status))) := by
  constructor
  · intro h200 hre
    simp [Api.StreamLogs, h200, hre]
  · intro hne
    simp [Api.StreamLogs, hne]

/-- C6 witness: a 200 response with body "ab" reaches the sink in full
with success; a 500 response delivers nothing and yields the
unexpected-status error. -/
theorem c6_witness :
    (Api.StreamLogs { authToken := "tok", endpoint := "http://e" }
        (fun _ => .ok { status := 200, body := "ab", readErr := none }) "wf").2
      = ("ab", .ok ()) ∧
    (Api.StreamLogs { authToken := "tok", endpoint := "http://e" }
        (fun _ => .ok { status := 500, body := "boom", readErr := none }) "wf").2
      = ("", .error (.unexpectedStatus 500)) :=
  ⟨(c6_streamLogs_status_behavior { authToken := "tok", endpoint := "http://e" } "wf"
      { status := 200, body := "ab", readErr := none }).1 rfl rfl,
   (c6_streamLogs_status_behavior { authToken := "tok", endpoint := "http://e" } "wf"
      { status := 500, body := "boom", readErr := none }).2 (by decide)⟩

end ArgoCloudOps

namespace ArgoCloudOps

theorem dotGitHere_iff (l : List Char) :
    dotGitHere l = true ↔ ∃ rest, l = '.' :: 'g' :: 'i' :: 't' :: rest := by
  unfold dotGitHere
  rw [List.isPrefixOf_iff_prefix]
  constructor
  · rintro ⟨t, ht⟩
    exact ⟨t, ht.symm⟩
  · rintro ⟨rest, rfl⟩
    exact ⟨rest, rfl⟩

theorem matchPath_iff (l : List Char) :
    matchPath l = true ↔
      ∃ p rest, l = p ++ ('.' :: 'g' :: 'i' :: 't' :: rest) ∧ p ≠ [] ∧
        ∀ ch ∈ p, isPathChar ch = true := by
  induction l with
  | nil =>
    constructor
    · intro h
      exact absurd h (by decide)
    · rintro ⟨p, rest, heq, hne, hall⟩
      cases p with
      | nil => exact absurd rfl hne
      | cons a as => simp at heq
  | cons c cs ih =>
    constructor
    · intro h
      simp only [matchPath, Bool.and_eq_true, Bool.or_eq_true] at h
      obtain ⟨hc, hrest⟩ := h
      cases hrest with
      | inl hdg =>
        obtain ⟨rest, hre⟩ := (dotGitHere_iff cs).mp hdg
        refine ⟨[c], rest, by rw [hre]; rfl, by simp, ?_⟩
        intro ch hch
        simp at hch
        rw [hch]
        exact hc
      | inr hmp =>
        obtain ⟨p, rest, heq, hne, hall⟩ := ih.mp hmp
        refine ⟨c :: p, rest, by rw [heq]; rfl, by simp, ?_⟩
        intro ch hch
        rcases List.mem_cons.mp hch with h1 | h2
        · rw [h1]
          exact hc
        · exact hall ch h2
    · rintro ⟨p, rest, heq, hne, hall⟩
      cases p with
      | nil => exact absurd rfl hne
      | cons a as =>
        simp only [List.cons_append] at heq
        injection heq with h1 h2
        subst h1
        simp only [matchPath, Bool.and_eq_true, Bool.or_eq_true]
        refine ⟨hall c (List.mem_cons_self _ _), ?_⟩
        cases as with
        | nil =>
          left
          apply (dotGitHere_iff cs).mpr
          exact ⟨rest, by simpa using h2⟩
        | cons b bs =>
          right
          apply ih.mpr
          refine ⟨b :: bs, rest, by simpa using h2, by simp, ?_⟩
          intro ch hch
          exact hall ch (List.mem_cons_of_mem _ hch)

theorem matchSepPath_iff (l : List Char) :
    matchSepPath l = true ↔
      ∃ sep t, l = sep ++ t ∧ (sep = [':'] ∨ sep = [':', '/', '/']) ∧
        matchPath t = true := by
  unfold matchSepPath
  simp only [Bool.or_eq_true, Bool.and_eq_true]
  constructor
  · rintro (⟨hp, hm⟩ | ⟨hp, hm⟩)
    · rw [List.isPrefixOf_iff_prefix] at hp
      obtain ⟨t, ht⟩ := hp
      subst ht
      exact ⟨[':'], t, rfl, Or.inl rfl, hm⟩
    · rw [List.isPrefixOf_iff_prefix] at hp
      obtain ⟨t, ht⟩ := hp
      subst ht
      exact ⟨[':', '/', '/'], t, rfl, Or.inr rfl, hm⟩
  · rintro ⟨sep, t, rfl, (rfl | rfl), hm⟩
    · left
      exact ⟨List.isPrefixOf_iff_prefix.mpr ⟨t, rfl⟩, hm⟩
    · right
      exact ⟨List.isPrefixOf_iff_prefix.mpr ⟨t, rfl⟩, hm⟩

theorem matchHost_iff (l : List Char) :
    matchHost l = true ↔
      ∃ h t, l = h ++ t ∧ h ≠ [] ∧ (∀ ch ∈ h, isHostChar ch = true) ∧
        matchSepPath t = true := by
  induction l with
  | nil =>
    constructor
    · intro h
      exact absurd h (by decide)
    · rintro ⟨h, t, heq, hne, hall, hsep⟩
      cases h with
      | nil => exact absurd rfl hne
      | cons a as => simp at heq
  | cons c cs ih =>
    constructor
    · intro hx
      simp only [matchHost, Bool.and_eq_true, Bool.or_eq_true] at hx
      obtain ⟨hc, hrest⟩ := hx
      cases hrest with
      | inl hsep =>
        refine ⟨[c], cs, rfl, by simp, ?_, hsep⟩
        intro ch hch
        simp at hch
        rw [hch]
        exact hc
      | inr hmh =>
        obtain ⟨h, t, heq, hne, hall, hsep⟩ := ih.mp hmh
        refine ⟨c :: h, t, by rw [heq]; rfl, by simp, ?_, hsep⟩
        intro ch hch
        rcases List.mem_cons.mp hch with h1 | h2
        · rw [h1]
          exact hc
        · exact hall ch h2
    · rintro ⟨h, t, heq, hne, hall, hsep⟩
      cases h with
      | nil => exact absurd rfl hne
      | cons a as =>
        simp only [List.cons_append] at heq
        injection heq with h1 h2
        subst h1
        simp only [matchHost, Bool.and_eq_true, Bool.or_eq_true]
        refine ⟨hall c (List.mem_cons_self _ _), ?_⟩
        cases as with
        | nil =>
          left
          rw [show cs = t by simpa using h2]
          exact hsep
        | cons b bs =>
          right
          apply ih.mpr
          refine ⟨b :: bs, t, h2, by simp, ?_, hsep⟩
          intro ch hch
          exact hall ch (List.mem_cons_of_mem _ hch)

theorem matchScheme_iff (l : List Char) :
    matchScheme l = true ↔
      ∃ a t, l = a ++ t ∧ SchemeToken a ∧ matchSepPath t = true := by
  unfold matchScheme
  simp only [Bool.or_eq_true, Bool.and_eq_true]
  constructor
  · rintro (((⟨hp, hm⟩ | ⟨hp, hm⟩) | ⟨hp, hm⟩) | ⟨hp, hm⟩)
    · rw [List.isPrefixOf_iff_prefix] at hp
      obtain ⟨t, ht⟩ := hp
      subst ht
      exact ⟨"git".data, t, rfl, Or.inl rfl, hm⟩
    · rw [List.isPrefixOf_iff_prefix] at hp
      obtain ⟨t, ht⟩ := hp
      subst ht
      exact ⟨"ssh".data, t, rfl, Or.inr (Or.inl rfl), hm⟩
    · rw [List.isPrefixOf_iff_prefix] at hp
      obtain ⟨t, ht⟩ := hp
      subst ht
      exact ⟨"https".data, t, rfl, Or.inr (Or.inr (Or.inl rfl)), hm⟩
    · rw [List.isPrefixOf_iff_prefix] at hp
      obtain ⟨u, hu⟩ := hp
      subst hu
      have hdu : (("git@".data ++ u).drop 4) = u := rfl
      rw [hdu] at hm
      obtain ⟨h, t, heq, hne, hall, hsep⟩ := (matchHost_iff _).mp hm
      refine ⟨"git@".data ++ h, t, ?_, Or.inr (Or.inr (Or.inr ⟨h, rfl, hne, hall⟩)), hsep⟩
      rw [heq, List.append_assoc]
  · rintro ⟨a, t, rfl, hs, hm⟩
    rcases hs with rfl | rfl | rfl | ⟨h, rfl, hne, hall⟩
    · exact Or.inl (Or.inl (Or.inl ⟨List.isPrefixOf_iff_prefix.mpr ⟨t, rfl⟩, hm⟩))
    · exact Or.inl (Or.inl (Or.inr ⟨List.isPrefixOf_iff_prefix.mpr ⟨t, rfl⟩, hm⟩))
    · exact Or.inl (Or.inr ⟨List.isPrefixOf_iff_prefix.mpr ⟨t, rfl⟩, hm⟩)
    · refine Or.inr ?_
      rw [List.append_assoc]
      refine ⟨List.isPrefixOf_iff_prefix.mpr ⟨h ++ t, rfl⟩, ?_⟩
      have hd : (("git@".data ++ (h ++ t)).drop 4) = h ++ t := rfl
      rw [hd]
      exact (matchHost_iff _).mpr ⟨h, t, rfl, hne, hall, hm⟩

theorem matchAnywhere_iff (l : List Char) :
    matchAnywhere l = true ↔
      ∃ pre suf, l = pre ++ suf ∧ matchScheme suf = true := by
  induction l with
  | nil =>
    constructor
    · intro h
      exact absurd h (by decide)
    · rintro ⟨pre, suf, heq, hm⟩
      obtain ⟨h1, h2⟩ := List.append_eq_nil.mp heq.symm
      subst h2
      exact absurd hm (by decide)
  | cons c cs ih =>
    constructor
    · intro h
      simp only [matchAnywhere, Bool.or_eq_true] at h
      cases h with
      | inl hm => exact ⟨[], c :: cs, rfl, hm⟩
      | inr ha =>
        obtain ⟨pre, suf, heq, hm⟩ := ih.mp ha
        exact ⟨c :: pre, suf, by rw [heq]; rfl, hm⟩
    · rintro ⟨pre, suf, heq, hm⟩
      simp only [matchAnywhere, Bool.or_eq_true]
      cases pre with
      | nil =>
        left
        rw [show suf = c :: cs by simpa using heq.symm] at hm
        exact hm
      | cons a as =>
        right
        apply ih.mpr
        simp only [List.cons_append] at heq
        injection heq with h1 h2
        exact ⟨as, suf, h2, hm⟩

/-- C5 amended: isValidGitURI(s) is true iff SOME SUBSTRING of s matches
the git-transport pattern — a git, ssh or https scheme or a git-at-host
form, then a colon optionally followed by two slashes, then a non-empty
run of path characters, then the literal .git — because Go MatchString is
unanchored; the match need not reach the end of s, so (contrary to the
claim) acceptance does not require s to terminate in .git or .git/ . -/
theorem c5_isValidGitURI_iff (s : String) :
    isValidGitURI s = true ↔ GitPatternMatch s.data := by
  unfold isValidGitURI GitPatternMatch
  rw [matchAnywhere_iff]
  constructor
  · rintro ⟨pre, suf, heq, hms⟩
    obtain ⟨a, t, rfl, hsch, hsep⟩ := (matchScheme_iff suf).mp hms
    obtain ⟨sep, u, rfl, hsepv, hmp⟩ := (matchSepPath_iff t).mp hsep
    obtain ⟨p, rest, rfl, hne, hall⟩ := (matchPath_iff u).mp hmp
    refine ⟨pre, a, sep, p, rest, ?_, hsch, hsepv, hne, hall⟩
    rw [heq]
    simp [List.append_assoc]
  · rintro ⟨pre, a, sep, p, rest, heq, hsch, hsepv, hne, hall⟩
    refine ⟨pre, a ++ (sep ++ (p ++ ('.' :: 'g' :: 'i' :: 't' :: rest))), ?_, ?_⟩
    · rw [heq]
      simp [List.append_assoc]
    · apply (matchScheme_iff _).mpr
      refine ⟨a, _, rfl, hsch, ?_⟩
      apply (matchSepPath_iff _).mpr
      refine ⟨sep, _, rfl, hsepv, ?_⟩
      apply (matchPath_iff _).mpr
      exact ⟨p, rest, rfl, hne, hall⟩

/-- C5 counterexample: the claim says strings not terminating in .git
(optionally followed by a slash) are rejected, yet the code accepts
"git:a.gitX", which ends in neither. -/
theorem c5_counterexample :
    isValidGitURI "git:a.gitX" = true ∧
    ".git".data.isSuffixOf "git:a.gitX".data = false ∧
    ".git/".data.isSuffixOf "git:a.gitX".data = false :=
  ⟨rfl, by decide, by decide⟩

end ArgoCloudOps
